import Mathlib

/-!
# Verification of the LLMQ-Horizon session/skill chat plugin

Shallow embedding of the `plugins/llm_chat` package:
`skills.py`, `tools.py`, `core_tools.py`, `graph.py`, `__init__.py`.

Conventions:
* Python `dict[str, V]` used as a total-lookup store is a Lean function
  `String → Option V` when only lookup/update matter, and an association
  list `List (String × V)` when the code iterates over keys.
* Timestamps are natural numbers (seconds).  Python computes
  `(now - t).total_seconds() > limit`; for the monotone clocks used here a
  negative difference compares as `false`, which truncated `Nat`
  subtraction reproduces exactly.
* Exceptions are explicit (`Except` / an outcome type); `nonebot`'s
  `Matcher.finish` sends its message and then raises `FinishedException`,
  which derives from `Exception` and is therefore caught by a bare
  `except Exception` block, as the code of `handle_chat_command` itself
  documents by re-raising `MatcherException` first in its own handlers.
-/

namespace LlmChat

/-- Single-quote character, used to build Python error strings. -/
def sq : String := String.singleton (Char.ofNat 39)

/-- Lookup in an association list (Python `dict.get`). -/
def lookupA {α : Type} (l : List (String × α)) (k : String) : Option α :=
  match l.find? (fun p => p.1 = k) with
  | some p => some p.2
  | none => none

/-- Contiguous-sublist test on character lists. -/
def charsInfix (pat : List Char) : List Char → Bool
  | [] => pat.isEmpty
  | c :: cs => pat.isPrefixOf (c :: cs) || charsInfix pat cs

/-- Python substring test `pat in s`. -/
def strContains (s pat : String) : Bool :=
  charsInfix pat.toList s.toList

/-- Python `repr` of a list of strings, as produced by an f-string. -/
def pyStrList (l : List String) : String :=
  "[" ++ String.intercalate ", " (l.map (fun n => sq ++ n ++ sq)) ++ "]"

/-- Python `\s` on ASCII (the whitespace `str.strip()` removes). -/
def isPyWs (c : Char) : Bool :=
  c = ' ' ∨ c = '\t' ∨ c = '\n' ∨ c = '\r' ∨ c = Char.ofNat 11 ∨ c = Char.ofNat 12

/-- Python `str.startswith`. -/
def pyStartsWith (s pre : String) : Bool :=
  pre.toList.isPrefixOf s.toList

/-- ASCII lower-casing of one character (Python `str.lower` on the
ASCII strings this plugin compares). -/
def charLower (c : Char) : Char :=
  if 65 ≤ c.toNat ∧ c.toNat ≤ 90 then Char.ofNat (c.toNat + 32) else c

/-- Python `str.lower`. -/
def pyLower (s : String) : String :=
  (s.toList.map charLower).asString

/-- Python `str.strip()`: remove surrounding whitespace. -/
def pyStrip (s : String) : String :=
  (((s.toList.dropWhile isPyWs).reverse.dropWhile isPyWs).reverse).asString

/-! ## Messages (`langchain_core.messages`)

Only the fields the plugin reads are modelled: message kind, content,
`invalid_tool_calls` (a list of dicts whose `error` entry may be `None`)
and `response_metadata["finish_reason"]`.  An `AIMessage.content` may be
a string or a list; calling `.strip()` on a non-empty list raises
`AttributeError` — the plugin relies on that (see
`_handle_langgraph_error`). -/

inductive AiContent where
  | ofStr (s : String)
  | ofList (items : List String)
  deriving DecidableEq

inductive Msg where
  | system (content : String)
  | human (content : String)
  | ai (content : AiContent) (invalidToolCalls : List (Option String))
      (finishReason : Option String)
  | tool (content : String)
  deriving DecidableEq

def Msg.isHuman : Msg → Bool
  | .human _ => true
  | _ => false

def Msg.isTool : Msg → Bool
  | .tool _ => true
  | _ => false

def Msg.isSystem : Msg → Bool
  | .system _ => true
  | _ => false

/-! ## `skills.py` — skill registry and resolution

Discovery fills four dictionaries; they are parameters of the model
(`registry : name → tool modules`, `descs`, `keywords`, `contents`). -/

/-- Model of `get_tools_for_skills` (skills.py:107-117): a set union rendered as a
deduplicated list — always the `"default"` tools, plus the tools of every
active skill that is present in the registry; unknown names contribute
nothing. -/
def getToolsForSkills (registry : List (String × List String))
    (activeSkills : List String) : List String :=
  ((lookupA registry "default").getD [] ++
    (activeSkills.map (fun sk => (lookupA registry sk).getD [])).flatten).dedup

/-- Model of `get_content_for_skills` (skills.py:120-126). -/
def getContentForSkills (contents : List (String × String))
    (activeSkills : List String) : String :=
  String.intercalate "\n\n"
    (activeSkills.filterMap (fun sk =>
      (lookupA contents sk).map (fun c => "--- Skill: " ++ sk ++ " ---\n" ++ c)))

/-! ## `tools.py` — tool loading -/

/-- Keys of `CORE_TOOLS` (core_tools.py:206-213); these are exactly the
builtin tool factories registered by `_get_builtin_tools`. -/
def coreToolNames : List String :=
  ["websearch", "webfetch", "todowrite", "todoread", "grep", "skill_setup"]

/-- Model of `load_tools` (tools.py:28-112).  `cfgBuiltin` and `cfgEnabled` are
`config-tools.toml`'s `tools.builtin` / `tools.enabled` lists (both default
to `[]` when absent); `moduleTools` maps a tool-module name to the `tools`
attribute of the imported module (`none` when the import fails or the
module has no such attribute — both are skipped with a log line). Tools
are identified by their factory/module names. -/
def loadTools (cfgBuiltin cfgEnabled : List String)
    (moduleTools : String → Option (List String))
    (enabledTools : Option (List String)) : List String :=
  let names0 := cfgBuiltin
  -- mandatory_tools = ["skill_setup"]: appended when absent and present
  -- among the factories
  let names1 :=
    if "skill_setup" ∉ names0 ∧ "skill_setup" ∈ coreToolNames then
      names0 ++ ["skill_setup"]
    else names0
  -- `if not builtin_tool_names:` — unreachable after the mandatory append
  let names2 := if names1 = [] then coreToolNames else names1
  -- factory lookup: names without a factory are skipped (warning only)
  let builtins := names2.filter (fun n => n ∈ coreToolNames)
  let enabled := enabledTools.getD cfgEnabled
  let ext := (enabled.map (fun m => (moduleTools m).getD [])).flatten
  builtins ++ ext

/-- Tool resolution for a set of active skills, as performed by the turn
pipeline (`graph.py` `chatbot`: `load_tools(enabled_tools =
get_tools_for_skills(...))`). -/
def resolveTools (registry : List (String × List String))
    (cfgBuiltin cfgEnabled : List String)
    (moduleTools : String → Option (List String))
    (activeSkills : List String) : List String :=
  loadTools cfgBuiltin cfgEnabled moduleTools
    (some (getToolsForSkills registry activeSkills))

/-! ## `core_tools.py` — the `skill_setup` tool and its global store

`SKILL_STORE` (core_tools.py:18) is a module-level dictionary shared by
every conversation; both the tool and the graph access it under the
hard-coded key `"default"` (`thread_id = "default"  # simplified`). -/

/-- Model of `SKILL_STORE`: thread-id → set of active skill names. -/
def SkillStore : Type := String → Option (List String)

def SkillStore.set (store : SkillStore) (k : String) (v : List String) : SkillStore :=
  fun x => if x = k then some v else store x

/-- Python `set.add`: insert if absent. -/
def addToSet (l : List String) (x : String) : List String :=
  if x ∈ l then l else l ++ [x]

/-- Model of `skill_setup` (core_tools.py:21-46).  `descs` is `SKILL_DESCRIPTIONS`.
Returns the updated global store and the tool's result message.  Note the
constant `thread_id = "default"`: the session's thread id plays no role. -/
def skillSetupRun (descs : List (String × String)) (action skillName : String)
    (store : SkillStore) : SkillStore × String :=
  let threadId := "default"
  let store1 :=
    if (store threadId).isNone then store.set threadId [] else store
  let cur := (store1 threadId).getD []
  if action = "enable" then
    if (lookupA descs skillName).isNone then
      (store1, "Error: Skill " ++ sq ++ skillName ++ sq ++ " not found. Available: "
        ++ pyStrList (descs.map (fun p => p.1)))
    else
      (store1.set threadId (addToSet cur skillName),
        "Skill " ++ sq ++ skillName ++ sq
          ++ " enabled. Knowledge will be injected in the next turn.")
  else if action = "disable" then
    (store1.set threadId (cur.erase skillName),
      "Skill " ++ sq ++ skillName ++ sq ++ " disabled.")
  else
    (store1, "Error: Action must be " ++ sq ++ "enable" ++ sq ++ " or "
      ++ sq ++ "disable" ++ sq ++ ".")

/-- The active-skill set a turn's `chatbot` node observes
(graph.py:200-201): `SKILL_STORE.get(thread_id, set())` with
`thread_id = "default"`, whatever the turn's real thread id is — the
first parameter is deliberately unused, exactly as in the source. -/
def chatbotActiveSkills (_turnThreadId : String) (store : SkillStore) : List String :=
  let threadId := "default"
  (store threadId).getD []

/-! ## `graph.py` — trimming and the `chatbot` node

`build_graph` configures `langchain_core.messages.trim_messages` with
`strategy="last"`, `max_tokens=config.llm.max_context_messages`,
`token_counter=len` (each message costs 1), `include_system=True`,
`allow_partial=False`, `start_on="human"`, `end_on=("human","tool")`
(graph.py:185-193).  `trimLast` models that external function for exactly
these parameters: drop messages from the end until the last one is
human/tool; keep a leading system message aside; take the most recent
messages within the budget; then drop messages from the front of the kept
window until it starts with a human message (dropping the system message
too when no human message remains). -/

/-- The most recent `n` elements of a list. -/
def takeLast (n : Nat) (l : List Msg) : List Msg :=
  l.drop (l.length - n)

def trimLast (budget : Nat) (ms : List Msg) : List Msg :=
  let popped := (ms.reverse.dropWhile (fun m => !(m.isHuman || m.isTool))).reverse
  match popped with
  | [] => []
  | m0 :: rest =>
    if m0.isSystem then
      let w := (takeLast (budget - 1) rest).dropWhile (fun m => !m.isHuman)
      if w.isEmpty then [] else m0 :: w
    else
      (takeLast budget popped).dropWhile (fun m => !m.isHuman)

/-- The system-prompt augmentation of `chatbot` (graph.py:226-247). -/
def buildSystemPrompt (sysPrompt : String) (descs : List (String × String))
    (activeSkills : List String) (skillContent : String) : String :=
  let sp := sysPrompt ++ "\n\n### Skill System\n"
    ++ "You have access to a " ++ sq ++ "skill_setup" ++ sq
    ++ " tool to enable/disable specialized capabilities.\n"
    ++ "Available Skills:\n"
  let sp := descs.foldl (fun acc p =>
    acc ++ "- " ++ p.1 ++ " "
      ++ (if p.1 ∈ activeSkills then "(Active)" else "(Inactive)")
      ++ ": " ++ p.2 ++ "\n") sp
  let sp := sp ++ "\n\n### IMPORTANT INSTRUCTION:\n"
    ++ "If the user asks for something that requires searching, checking, or performing an action, YOU MUST USE THE TOOLS IMMEDIATELY.\n"
    ++ "DO NOT just say " ++ sq ++ "I will search" ++ sq ++ " or " ++ sq
    ++ "Let me check" ++ sq ++ ". CALL THE TOOL directly.\n"
    ++ "If you need specific knowledge (like SGU admission), enable the skill first using "
    ++ sq ++ "skill_setup" ++ sq ++ ".\n"
  if skillContent ≠ "" then sp ++ "\n### Active Skills Knowledge\n" ++ skillContent
  else sp

structure ChatbotResult where
  outMessages : List Msg
  /-- the `active_tools` entry of the returned state update; `none` when
  the function returns only `{"messages": []}` -/
  activeTools : Option (List String)
  /-- the `active_skills` local the node resolved for this turn -/
  activeSkills : List String
  invokedModel : Bool
  deriving DecidableEq

/-- The `chatbot` node (graph.py:195-266).  `llm` is the bound-model
oracle (`llm_with_tools.ainvoke`); `store` is the global `SKILL_STORE`.
The node resolves skills from `SKILL_STORE["default"]` only, builds the
fixed messages, trims the history, and short-circuits with
`{"messages": []}` — without calling the model — when trimming discards
everything. -/
def chatbotStep (sysPrompt : Option String) (qaPairs : List (String × String))
    (budget : Nat) (descs : List (String × String))
    (contents : List (String × String)) (registry : List (String × List String))
    (cfgBuiltin cfgEnabled : List String)
    (moduleTools : String → Option (List String)) (llm : List Msg → Msg)
    (store : SkillStore) (ms : List Msg) : ChatbotResult :=
  let activeSkills := chatbotActiveSkills "default" store
  let activeToolNames := getToolsForSkills registry activeSkills
  let skillContent := getContentForSkills contents activeSkills
  let _currentTools := loadTools cfgBuiltin cfgEnabled moduleTools (some activeToolNames)
  let fixed :=
    (match sysPrompt with
      | some spv =>
        if spv ≠ "" then
          [Msg.system (buildSystemPrompt spv descs activeSkills skillContent)]
        else []
      | none => [])
    ++ (qaPairs.map (fun p =>
        [Msg.human p.1, Msg.ai (AiContent.ofStr p.2) [] none])).flatten
  let trimmed := trimLast budget ms
  if trimmed.isEmpty then
    { outMessages := [], activeTools := none, activeSkills := activeSkills,
      invokedModel := false }
  else
    let response := llm (fixed ++ trimmed)
    { outMessages := [response], activeTools := some activeToolNames,
      activeSkills := activeSkills, invokedModel := true }

/-- Spec-side definition (NOT from the code — it formalises the claimed
keyword auto-activation, for comparison): the skills whose keyword list
contains a keyword occurring, case-folded, in the latest user message. -/
def specKeywordActivatedSkills (keywords : List (String × List String))
    (latestUserMsg : String) : List String :=
  (keywords.filter (fun p =>
    p.2.any (fun kw => strContains (pyLower latestUserMsg) (pyLower kw)))).map (fun p => p.1)

/-! ## `__init__.py` — sessions, concurrency manager, turn handling -/

def cleanupInterval : Nat := 600

/-- Model of `Session` (__init__.py:50-103).  `memory` and `graph` are opaque and
not read by any modelled operation; `lockLocked` is the state of the
session's `asyncio.Lock`. -/
structure Session where
  threadId : String
  lastAccessed : Nat
  processing : Bool
  processingStartTime : Option Nat
  activeSkills : List String
  lockLocked : Bool
  deriving DecidableEq

/-- Model of `Session.__init__` (lines 51-61): default skills `["sgu","weather"]`. -/
def mkSession (tid : String) (now : Nat) : Session :=
  { threadId := tid, lastAccessed := now, processing := false,
    processingStartTime := none, activeSkills := ["sgu", "weather"],
    lockLocked := false }

/-- Model of `is_expired` (lines 63-68): strictly more than 600 s since access. -/
def Session.isExpired (s : Session) (now : Nat) : Bool :=
  now - s.lastAccessed > cleanupInterval

/-- Model of `is_processing_timeout` (lines 70-77). -/
def Session.isProcessingTimeout (s : Session) (now : Nat) : Bool :=
  if !s.processing || s.processingStartTime.isNone then false
  else
    match s.processingStartTime with
    | some t => now - t > 60
    | none => false

/-- Model of `refresh` (lines 79-81). -/
def Session.refresh (s : Session) (now : Nat) : Session :=
  { s with lastAccessed := now }

/-- Model of `try_acquire_lock` (lines 83-91): on a stale (timed-out) processing
flag, clear it and proceed; on a live one report busy; otherwise proceed. -/
def Session.tryAcquireLock (s : Session) (now : Nat) : Bool × Session :=
  if s.processing then
    if s.isProcessingTimeout now then
      (true, { s with processing := false, processingStartTime := none })
    else (false, s)
  else (true, s)

/-- Model of `start_processing` (lines 93-97). -/
def Session.startProcessing (s : Session) (now : Nat) : Session :=
  { s with processing := true, processingStartTime := some now, lastAccessed := now }

/-- Model of `end_processing` (lines 99-103). -/
def Session.endProcessing (s : Session) (now : Nat) : Session :=
  { s with processing := false, processingStartTime := none, lastAccessed := now }

/-- The global `sessions` dict; keys are unique by construction. -/
abbrev SessionsMap := List (String × Session)

def eraseKey (m : SessionsMap) (k : String) : SessionsMap :=
  m.filter (fun p => p.1 ≠ k)

/-- Replace the value stored under `k` (object mutation seen through the
dict). -/
def setKey (m : SessionsMap) (k : String) (s : Session) : SessionsMap :=
  m.map (fun p => if p.1 = k then (k, s) else p)

/-- Model of `sessions` plus `LAST_CLEANUP_TIME` (lines 107-113). -/
structure GState where
  sessions : SessionsMap
  lastCleanupTime : Nat
  deriving DecidableEq

/-- Model of `cleanup_sessions` (lines 116-122). -/
def cleanupSessions (m : SessionsMap) (now : Nat) : SessionsMap :=
  m.filter (fun p => !(p.2.isExpired now))

/-- Model of `get_or_create_session` (lines 125-142): sweep when due, then return
the (possibly fresh) session, refreshed. -/
def getOrCreateSession (g : GState) (tid : String) (now : Nat) : GState × Session :=
  let g1 :=
    if now - g.lastCleanupTime > cleanupInterval then
      { sessions := cleanupSessions g.sessions now, lastCleanupTime := now }
    else g
  match lookupA g1.sessions tid with
  | some s =>
    let s1 := s.refresh now
    ({ g1 with sessions := setKey g1.sessions tid s1 }, s1)
  | none =>
    let s1 := (mkSession tid now).refresh now
    ({ g1 with sessions := g1.sessions ++ [(tid, s1)] }, s1)

/-- The `plugin_config.responses.*` strings consumed by `handle_chat`
(config-defined, external to the six source files). -/
structure RespConfig where
  sessionBusyMessage : String
  tokenLimitError : String
  generalError : String
  assistantEmptyReply : String
  deriving DecidableEq

/-- Fixed reply, `__init__.py:186`. -/
def safetyBlockedReply : String := "AI消息因安全策略被拦截。"

/-- Fixed reply, `__init__.py:192/198/208`. -/
def didNotUnderstandReply : String := "对不起，我没有理解您的问题。"

def toolCallFailedHdr : String := "工具调用失败: "

/-- The "context too large" error signature checked at `__init__.py:224`:
`list object has no attribute strip` (in quotes). -/
def listStripSignature : String :=
  sq ++ "list" ++ sq ++ " object has no attribute " ++ sq ++ "strip" ++ sq

/-- The exceptions that can reach `handle_chat`'s `except Exception`. -/
inductive PyExc where
  /-- Case `FinishedException` raised by `chat_handler.finish` (its `str` is
  empty) -/
  | finishedExc
  /-- Case `AttributeError` raised by `list.strip()` in
  `_process_llm_response` -/
  | listStripAttrError
  /-- anything raised out of `session.graph.ainvoke` -/
  | external (msg : String)
  deriving DecidableEq

def PyExc.toStr : PyExc → String
  | .finishedExc => ""
  | .listStripAttrError => listStripSignature
  | .external m => m

/-- Model of `_process_llm_response` (__init__.py:157-208): interpret the last
message of the result; on an empty / safety-blocked `AIMessage` delete
the session from the store; a non-empty list content raises
`AttributeError` at `content.strip()`. -/
def processLlmResponse (cfg : RespConfig) (result : List Msg) (tid : String)
    (store : SessionsMap) : Except PyExc (String × SessionsMap) :=
  match result.getLast? with
  | none => .ok (cfg.assistantEmptyReply, store)
  | some last =>
    match last with
    | .ai content itc fr =>
      match itc with
      | e :: _ =>
        .ok (toolCallFailedHdr ++ (match e with | some m => m | none => "None"),
          store)
      | [] =>
        match content with
        | .ofStr s =>
          if pyStrip s = "" then
            if fr = some "SAFETY" then .ok (safetyBlockedReply, eraseKey store tid)
            else .ok (didNotUnderstandReply, eraseKey store tid)
          else .ok (pyStrip s, store)
        | .ofList items =>
          match items with
          | [] =>
            if fr = some "SAFETY" then .ok (safetyBlockedReply, eraseKey store tid)
            else .ok (didNotUnderstandReply, eraseKey store tid)
          | _ :: _ => .error .listStripAttrError
    | .tool c =>
      if c ≠ "" then .ok (c, store) else .ok (didNotUnderstandReply, store)
    | _ => .ok (didNotUnderstandReply, store)

/-- Model of `_handle_langgraph_error` (__init__.py:211-226): delete the session,
choose the reply by the "context too large" signature. -/
def handleLanggraphError (cfg : RespConfig) (e : PyExc) (tid : String)
    (store : SessionsMap) : String × SessionsMap :=
  (if strContains e.toStr listStripSignature then cfg.tokenLimitError
   else cfg.generalError,
   eraseKey store tid)

/-- Environment outcome of `session.graph.ainvoke`. -/
inductive PipeOutcome where
  | ok (messages : List Msg)
  | exc (msg : String)
  deriving DecidableEq

structure TurnResult where
  state : GState
  /-- final state of the turn's session object (which the store may no
  longer reference if the turn deleted it) -/
  session : Session
  /-- messages sent to the user, in order -/
  sent : List String
  /-- whether `session.graph.ainvoke` was reached -/
  invokedPipeline : Bool
  deriving DecidableEq

/-- Model of `handle_chat` from the session stage on (__init__.py:330-441).

* `acquired` — whether `asyncio.wait_for(session.lock.acquire(), 1.0)`
  succeeded (on timeout the busy message is sent and the turn ends).
* With the lock held, `try_acquire_lock` failing calls
  `chat_handler.finish(busy)`, which sends the busy message and raises
  `FinishedException`; the surrounding `except Exception` catches it and
  runs `_handle_langgraph_error` (deleting the session), the `finally`
  block runs `end_processing` and releases the lock, and the handler then
  falls through to send the error response as well.
* Otherwise the turn marks processing, runs the pipeline, interprets the
  result (or the exception), and the `finally` block unconditionally runs
  `end_processing` and releases the lock.

`t0` is the wall clock up to and including `start_processing`, `tEnd` the
clock at `end_processing`.  Media extraction and chunked sending do not
alter which reply string is produced and are not modelled. -/
def handleChat (cfg : RespConfig) (g : GState) (tid : String) (acquired : Bool)
    (pipe : PipeOutcome) (t0 tEnd : Nat) : TurnResult :=
  let gs := getOrCreateSession g tid t0
  let g1 := gs.1
  let sess0 := gs.2
  if !acquired then
    { state := g1, session := sess0, sent := [cfg.sessionBusyMessage],
      invokedPipeline := false }
  else
    let sessL := { sess0 with lockLocked := true }
    let acq := sessL.tryAcquireLock t0
    if !acq.1 then
      let hr := handleLanggraphError cfg .finishedExc tid g1.sessions
      let sess3 := { acq.2.endProcessing tEnd with lockLocked := false }
      let storeF :=
        if (lookupA hr.2 tid).isNone then hr.2 else setKey hr.2 tid sess3
      { state := { g1 with sessions := storeF }, session := sess3,
        sent := [cfg.sessionBusyMessage, hr.1], invokedPipeline := false }
    else
      let sess2 := acq.2.startProcessing t0
      let store2 := setKey g1.sessions tid sess2
      let pr :=
        match pipe with
        | .ok result =>
          match processLlmResponse cfg result tid store2 with
          | .ok p => p
          | .error e => handleLanggraphError cfg e tid store2
        | .exc m => handleLanggraphError cfg (.external m) tid store2
      let sess4 := { sess2.endProcessing tEnd with lockLocked := false }
      let storeF :=
        if (lookupA pr.2 tid).isNone then pr.2 else setKey pr.2 tid sess4
      { state := { g1 with sessions := storeF }, session := sess4,
        sent := [pr.1], invokedPipeline := true }

/-! ## `handle_chat_command` — the `group` toggle -/

/-- The conversation context a command/message arrives from. -/
inductive CmdCtx where
  | group (gid : Nat) (uid : Nat)
  | priv (uid : Nat)
  deriving DecidableEq

/-- Thread-id derivation (__init__.py:310-316). -/
def deriveThreadId (ctx : CmdCtx) (iso : Bool) : String :=
  match ctx with
  | .group gid uid =>
    if iso then "group_" ++ toString gid ++ "_" ++ toString uid
    else "group_" ++ toString gid
  | .priv uid => "private_" ++ toString uid

/-- The `chat group <bool>` branch of `handle_chat_command`
(__init__.py:515-548): set the isolation flag, then purge sessions.
Returns the new flag, the new state and the reply.  An invalid argument
aborts via `finish` before any purge. -/
def handleGroupToggle (g : GState) (ctx : CmdCtx) (arg : String)
    (oldIso : Bool) : Bool × GState × String :=
  let argl := pyLower (pyStrip arg)
  if argl = "true" ∨ argl = "false" then
    let newIso := argl = "true"
    let shouldRemove : String → Bool :=
      match ctx with
      | .group gid _ =>
        let pre := "group_" ++ toString gid
        if newIso then fun k => pyStartsWith k (pre ++ "_")
        else fun k => k = pre
      | .priv _ => fun k => pyStartsWith k "private_"
    let sessions1 := g.sessions.filter (fun p => !(shouldRemove p.1))
    (newIso, { g with sessions := sessions1 },
      "已" ++ (if newIso then "启用" else "禁用") ++ "群聊会话隔离，已清理对应会话")
  else
    (oldIso, g, "请输入 true 或 false")

/-! ## `skills.py` — frontmatter parsing and discovery

`_parse_frontmatter` (skills.py:17-34) matches
`re.match(r"^---\s*\n(.*?)\n---\s*\n(.*)$", content, re.DOTALL)`; on no
match it returns `({}, content)`; on a match it sets `body` to group 2
first and only overwrites `meta` when `yaml.safe_load` both succeeds and
yields a dict, so a YAML error degrades to empty metadata with the
post-delimiter body.  The external PyYAML call is the oracle `yamlLoad`,
returning only what discovery consumes. -/

/-- Match `\s*\n` greedily at the front: require a newline inside the
leading whitespace run and cut after the last one. -/
def eatWsNl (l : List Char) : Option (List Char) :=
  let w := l.takeWhile isPyWs
  if w.contains '\n' then
    let afterLast := (w.reverse.takeWhile (fun c => c ≠ '\n')).length
    some (l.drop (w.length - afterLast))
  else none

/-- Match the closing delimiter `\n---\s*\n` at the current position. -/
def checkSepHere : List Char → Option (List Char)
  | '\n' :: '-' :: '-' :: '-' :: r => eatWsNl r
  | _ => none

/-- Lazy search (`(.*?)`) for the closing delimiter: first match wins;
returns (group 1, group 2). -/
def findSep : List Char → Option (List Char × List Char)
  | [] => none
  | c :: cs =>
    match checkSepHere (c :: cs) with
    | some rem => some ([], rem)
    | none =>
      match findSep cs with
      | some p => some (c :: p.1, p.2)
      | none => none

/-- The frontmatter regex: `none` when the input does not begin with a
well-formed `---`-delimited block, otherwise the YAML text and the body. -/
def fmMatch (content : String) : Option (String × String) :=
  if pyStartsWith content "---" then
    match eatWsNl (content.toList.drop 3) with
    | none => none
    | some after =>
      match findSep after with
      | none => none
      | some p => some (p.1.asString, p.2.asString)
  else none

/-- The metadata keys discovery reads (`name`, `description`,
`keywords`); an absent field stands for an absent dict key. -/
structure FrontMeta where
  nameKey : Option String
  descriptionKey : Option String
  keywordsKey : Option (List String)
  deriving DecidableEq

def emptyMeta : FrontMeta := ⟨none, none, none⟩

/-- Outcome of `yaml.safe_load` on the frontmatter text. -/
inductive YamlOutcome where
  /-- Case `yaml.YAMLError` raised (caught, logged) -/
  | yamlError
  /-- parsed, but not a dict (`isinstance(parsed, dict)` fails) -/
  | nonDict
  | ydict (m : FrontMeta)
  deriving DecidableEq

/-- Model of `_parse_frontmatter` (skills.py:17-34); total: it never raises. -/
def parseFrontmatter (yamlLoad : String → YamlOutcome) (content : String) :
    FrontMeta × String :=
  match fmMatch content with
  | none => (emptyMeta, content)
  | some (y, b) =>
    match yamlLoad y with
    | .ydict m => (m, b)
    | _ => (emptyMeta, b)

/-- What `_discover_skills` (skills.py:61-83) records for one skill
directory holding a `SKILL.md` with `content`. -/
structure SkillEntry where
  name : String
  description : String
  keywords : List String
  content : String
  toolModules : List String
  deriving DecidableEq

def discoverSkillEntry (yamlLoad : String → YamlOutcome) (dirName : String)
    (content : String) (hasToolsFile : Bool) : SkillEntry :=
  let pb := parseFrontmatter yamlLoad content
  let meta := pb.1
  let body := pb.2
  { name := meta.nameKey.getD dirName,
    description := meta.descriptionKey.getD "",
    keywords := meta.keywordsKey.getD [],
    content := body,
    toolModules :=
      if hasToolsFile then ["skills." ++ dirName ++ ".tools"] else [] }

/-- The emptiness test `(not content) or (not content.strip())` of
`_process_llm_response`, for contents that do not raise (a string, or the
falsy empty list); a non-empty list raises `AttributeError` instead. -/
def aiContentEmpty : AiContent → Bool
  | .ofStr s => pyStrip s = ""
  | .ofList items => items.isEmpty

/-- The turn is not turned away as busy: the session produced by
`get_or_create_session` passes `try_acquire_lock`. -/
def turnNotBusy (g : GState) (tid : String) (t0 : Nat) : Prop :=
  ((({ (getOrCreateSession g tid t0).2 with lockLocked := true } : Session).tryAcquireLock
    t0)).1 = true

/-- The store as `handle_chat`'s pipeline sees it: after
`get_or_create_session`, `try_acquire_lock` and `start_processing`. -/
def turnStore2 (g : GState) (tid : String) (t0 : Nat) : SessionsMap :=
  setKey (getOrCreateSession g tid t0).1.sessions tid
    (((({ (getOrCreateSession g tid t0).2 with lockLocked := true } :
      Session).tryAcquireLock t0).2).startProcessing t0)

/-- The `(response, sessions)` pair `handle_chat` computes from the
pipeline outcome (the `try`/`except` body after `start_processing`). -/
def turnReply (cfg : RespConfig) (g : GState) (tid : String) (pipe : PipeOutcome)
    (t0 : Nat) : String × SessionsMap :=
  match pipe with
  | .ok result =>
    match processLlmResponse cfg result tid (turnStore2 g tid t0) with
    | .ok p => p
    | .error e => handleLanggraphError cfg e tid (turnStore2 g tid t0)
  | .exc m => handleLanggraphError cfg (.external m) tid (turnStore2 g tid t0)

/-- The turn's session object after the `finally` block. -/
def turnFinalSession (g : GState) (tid : String) (t0 tEnd : Nat) : Session :=
  { ((((({ (getOrCreateSession g tid t0).2 with lockLocked := true } :
      Session).tryAcquireLock t0).2).startProcessing t0).endProcessing tEnd) with
    lockLocked := false }

/-! ## Store lemmas -/

lemma lookupA_nil {α : Type} (k : String) : lookupA ([] : List (String × α)) k = none := rfl

lemma lookupA_cons {α : Type} (a : String × α) (t : List (String × α)) (k : String) :
    lookupA (a :: t) k = if a.1 = k then some a.2 else lookupA t k := by
  rcases a with ⟨k1, v⟩
  by_cases h : k1 = k <;> simp [lookupA, List.find?, h]

lemma mem_addToSet (l : List String) (x : String) : x ∈ addToSet l x := by
  unfold addToSet
  split <;> simp_all

/-- Looking up after filtering out the keys satisfying `f`. -/
lemma lookupA_filter_key {α : Type} (m : List (String × α)) (f : String → Bool)
    (k : String) :
    lookupA (m.filter (fun p => !(f p.1))) k =
      if f k then none else lookupA m k := by
  induction m with
  | nil => simp [lookupA_nil]
  | cons a t ih =>
    rcases a with ⟨k1, v⟩
    by_cases hf : f k1
    · have : ¬ (!(f k1) = true) := by simp [hf]
      rw [List.filter_cons_of_neg (by simpa using this), ih]
      by_cases hk : f k
      · simp [hk]
      · have hne : k1 ≠ k := fun he => hk (he ▸ hf)
        simp [hk, lookupA_cons, hne]
    · rw [List.filter_cons_of_pos (by simpa using hf)]
      by_cases hke : k1 = k
      · subst hke
        simp [lookupA_cons, hf]
      · simp [lookupA_cons, hke, ih]

lemma eraseKey_eq_filter (m : SessionsMap) (k : String) :
    eraseKey m k = m.filter (fun p => !(p.1 = k)) := by
  unfold eraseKey
  congr 1
  funext p
  simp [decide_not]

lemma lookupA_eraseKey_self (m : SessionsMap) (k : String) :
    lookupA (eraseKey m k) k = none := by
  rw [eraseKey_eq_filter, lookupA_filter_key m (fun x => x = k) k]
  simp

lemma lookupA_eraseKey_ne (m : SessionsMap) (k k' : String) (h : k' ≠ k) :
    lookupA (eraseKey m k) k' = lookupA m k' := by
  rw [eraseKey_eq_filter, lookupA_filter_key m (fun x => x = k) k']
  simp [h]

lemma setKey_cons (k1 : String) (v : Session) (t : SessionsMap) (k : String)
    (s : Session) :
    setKey ((k1, v) :: t) k s =
      (if k1 = k then (k, s) else (k1, v)) :: setKey t k s := rfl

lemma lookupA_setKey_ne (m : SessionsMap) (k : String) (s : Session) (k' : String)
    (h : k' ≠ k) : lookupA (setKey m k s) k' = lookupA m k' := by
  induction m with
  | nil => rfl
  | cons a t ih =>
    rcases a with ⟨k1, v⟩
    simp only [setKey_cons, lookupA_cons]
    by_cases hk1 : k1 = k
    · subst hk1
      have h2 : ¬ (k1 = k') := fun he => h he.symm
      simp [h2, ih]
    · simp only [if_neg hk1]
      by_cases he : k1 = k'
      · simp [he]
      · simp [he, ih]

lemma lookupA_setKey_self (m : SessionsMap) (k : String) (s : Session) :
    lookupA (setKey m k s) k = (lookupA m k).map (fun _ => s) := by
  induction m with
  | nil => rfl
  | cons a t ih =>
    rcases a with ⟨k1, v⟩
    simp only [setKey_cons, lookupA_cons]
    by_cases hk1 : k1 = k
    · subst hk1
      simp
    · simp [hk1, ih]

/-! ## Claim C4 — cross-thread interference through the skill store -/

/-- Claim C4, counterexample.  The claim asserts two-run noninterference
across thread-ids.  In the code, a turn for thread `group_1_2` whose model
calls the skill-toggle tool `skill_setup("enable", "sgu")` mutates the
global `SKILL_STORE` under the constant key `"default"`; the next turn
for the unrelated thread `private_9` resolves its active skills from that
same entry and observes the change — active-skill set and bound tool
modules both differ. -/
theorem claim_C4_counterexample :
    chatbotActiveSkills "private_9"
        (skillSetupRun [("sgu", "SGU knowledge")] "enable" "sgu" (fun _ => none)).1
      ≠ chatbotActiveSkills "private_9" (fun _ => none)
    ∧ getToolsForSkills [("default", []), ("sgu", ["skills.sgu.tools"])]
        (chatbotActiveSkills "private_9"
          (skillSetupRun [("sgu", "SGU knowledge")] "enable" "sgu" (fun _ => none)).1)
      ≠ getToolsForSkills [("default", []), ("sgu", ["skills.sgu.tools"])]
        (chatbotActiveSkills "private_9" (fun _ => none)) := by
  constructor
  · decide
  · decide

/-- Claim C4, amended.  The turn pipeline does share mutable state across
thread-ids: the skill store is keyed by the constant `"default"`, so the
active-skill set a turn observes is identical for every pair of thread
ids, and a `skill_setup("enable", name)` executed during any turn is
observed by every other thread's subsequent turn. -/
theorem claim_C4_amended :
    ∀ (tidA tidB : String) (descs : List (String × String)) (store : SkillStore)
      (name : String),
      (lookupA descs name).isSome →
      name ∈ chatbotActiveSkills tidB (skillSetupRun descs "enable" name store).1
      ∧ (∀ st : SkillStore, chatbotActiveSkills tidA st = chatbotActiveSkills tidB st) := by
  intro tidA tidB descs store name hname
  constructor
  · have hn : (lookupA descs name).isNone = false := by
      rcases hsome : lookupA descs name with _ | v
      · rw [hsome] at hname
        simp at hname
      · rfl
    unfold skillSetupRun chatbotActiveSkills
    simp [hn, SkillStore.set, mem_addToSet]
  · intro st
    rfl

/-- Claim C4, amended, witness. -/
theorem claim_C4_amended_witness :
    (lookupA [("sgu", "SGU knowledge")] "sgu").isSome
    ∧ "sgu" ∈ chatbotActiveSkills "private_9"
        (skillSetupRun [("sgu", "SGU knowledge")] "enable" "sgu" (fun _ => none)).1 :=
  ⟨by decide,
    (claim_C4_amended "group_1_2" "private_9" [("sgu", "SGU knowledge")]
      (fun _ => none) "sgu" (by decide)).1⟩

/-! ## Claim C5 — no keyword-triggered skill activation exists -/

/-- Claim C5, counterexample.  The claim asserts that tool resolution scans
the latest user message, case-folded, against every registered skill's
keyword list and adds matching skills to the turn's active set.  With a
registered skill `weather` whose keyword `weather` occurs (case-folded)
in the user message, the `chatbot` node still resolves the active-skill
set solely from `SKILL_STORE["default"]`: the skill is not activated and
its tool module is not bound.  `SKILL_KEYWORDS` is populated at
discovery (skills.py:69) but never read by any resolution code. -/
theorem claim_C5_counterexample :
    "weather" ∈ specKeywordActivatedSkills [("weather", ["weather"])]
        "What is the Weather today"
    ∧ (chatbotStep none [] 10 [("weather", "forecasts")] []
        [("default", []), ("weather", ["skills.weather.tools"])] [] []
        (fun _ => none) (fun _ => Msg.ai (.ofStr "ok") [] none) (fun _ => none)
        [Msg.human "What is the Weather today"]).activeSkills = []
    ∧ "skills.weather.tools" ∉
        ((chatbotStep none [] 10 [("weather", "forecasts")] []
          [("default", []), ("weather", ["skills.weather.tools"])] [] []
          (fun _ => none) (fun _ => Msg.ai (.ofStr "ok") [] none) (fun _ => none)
          [Msg.human "What is the Weather today"]).activeTools.getD []) := by
  refine ⟨by decide, by decide, by decide⟩

/-- Claim C5, amended.  For every turn, the active-skill set used by tool
resolution is exactly the global skill store's `"default"` entry,
independent of the incoming message list; skill keywords are never
consulted, so a skill joins the set only through the skill-toggle tool
(whose effect persists in the global store), not through message
content. -/
theorem claim_C5_amended :
    ∀ (sysPrompt : Option String) (qaPairs : List (String × String)) (budget : Nat)
      (descs contents : List (String × String))
      (registry : List (String × List String)) (cfgB cfgE : List String)
      (mt : String → Option (List String)) (llm : List Msg → Msg)
      (store : SkillStore) (ms ms2 : List Msg),
      (chatbotStep sysPrompt qaPairs budget descs contents registry cfgB cfgE mt
          llm store ms).activeSkills = chatbotActiveSkills "default" store
      ∧ (chatbotStep sysPrompt qaPairs budget descs contents registry cfgB cfgE mt
          llm store ms).activeSkills =
        (chatbotStep sysPrompt qaPairs budget descs contents registry cfgB cfgE mt
          llm store ms2).activeSkills := by
  intro sysPrompt qaPairs budget descs contents registry cfgB cfgE mt llm store ms ms2
  have base : ∀ msx : List Msg,
      (chatbotStep sysPrompt qaPairs budget descs contents registry cfgB cfgE mt
        llm store msx).activeSkills = chatbotActiveSkills "default" store := by
    intro msx
    unfold chatbotStep
    simp only []
    split <;> rfl
  exact ⟨base ms, (base ms).trans (base ms2).symm⟩

/-! ## Claim C8 — which key shape the `group` toggle purges -/

/-- Claim C8, counterexample.  The claim says toggling isolation **on**
removes the keys of shape `group_{gid}` (the old, now-inconsistent
shape) and retains the new shape.  The code does the opposite: with
sessions `group_7` and `group_7_9` present, `chat group true` issued
from group 7 removes `group_7_9` and retains `group_7`. -/
theorem claim_C8_counterexample :
    (lookupA (handleGroupToggle
        ⟨[("group_7", mkSession "group_7" 0), ("group_7_9", mkSession "group_7_9" 0)], 0⟩
        (.group 7 9) "true" false).2.1.sessions "group_7_9") = none
    ∧ (lookupA (handleGroupToggle
        ⟨[("group_7", mkSession "group_7" 0), ("group_7_9", mkSession "group_7_9" 0)], 0⟩
        (.group 7 9) "true" false).2.1.sessions "group_7").isSome := by
  constructor
  · decide
  · decide

/-- Claim C8, amended.  The purge matches the *new* flag value, not the
old shape: toggling isolation **on** removes exactly the keys of shape
`group_{gid}_*` for the issuing group; toggling it **off** removes
exactly the key `group_{gid}`; issued from a private context the command
removes every `private_*` key.  All other keys are retained. -/
theorem claim_C8_amended :
    ∀ (g : GState) (gid uid pu : Nat) (k : String),
      lookupA (handleGroupToggle g (.group gid uid) "true" false).2.1.sessions k
        = (if pyStartsWith k ("group_" ++ toString gid ++ "_") then none
           else lookupA g.sessions k)
      ∧ lookupA (handleGroupToggle g (.group gid uid) "false" true).2.1.sessions k
        = (if k = "group_" ++ toString gid then none else lookupA g.sessions k)
      ∧ lookupA (handleGroupToggle g (.priv pu) "true" false).2.1.sessions k
        = (if pyStartsWith k "private_" then none else lookupA g.sessions k) := by
  intro g gid uid pu k
  refine ⟨?_, ?_, ?_⟩
  · have e1 : (handleGroupToggle g (.group gid uid) "true" false).2.1.sessions
        = g.sessions.filter
            (fun p => !(pyStartsWith p.1 ("group_" ++ toString gid ++ "_"))) := rfl
    rw [e1]
    exact lookupA_filter_key g.sessions
      (fun x => pyStartsWith x ("group_" ++ toString gid ++ "_")) k
  · have e2 : (handleGroupToggle g (.group gid uid) "false" true).2.1.sessions
        = g.sessions.filter
            (fun p => !(decide (p.1 = "group_" ++ toString gid))) := rfl
    rw [e2]
    have := lookupA_filter_key g.sessions
      (fun x => decide (x = "group_" ++ toString gid)) k
    simpa using this
  · have e3 : (handleGroupToggle g (.priv pu) "true" false).2.1.sessions
        = g.sessions.filter (fun p => !(pyStartsWith p.1 "private_")) := rfl
    rw [e3]
    exact lookupA_filter_key g.sessions (fun x => pyStartsWith x "private_") k

/-! ## Claim C9 — tool resolution: mandatory tools, unknown skills -/

lemma skill_setup_mem_loadTools (cfgB cfgE : List String)
    (mt : String → Option (List String)) (et : Option (List String)) :
    "skill_setup" ∈ loadTools cfgB cfgE mt et := by
  unfold loadTools
  simp only []
  apply List.mem_append_left
  apply List.mem_filter.mpr
  refine ⟨?_, by decide⟩
  by_cases h : "skill_setup" ∈ cfgB
  · have hcond : ¬ ("skill_setup" ∉ cfgB ∧ "skill_setup" ∈ coreToolNames) :=
      fun hc => hc.1 h
    rw [if_neg hcond]
    have hne : ¬ (cfgB = []) := by
      intro he
      rw [he] at h
      exact List.not_mem_nil _ h
    rw [if_neg hne]
    exact h
  · have hcond : ("skill_setup" ∉ cfgB ∧ "skill_setup" ∈ coreToolNames) :=
      ⟨h, by decide⟩
    rw [if_pos hcond]
    have hne : ¬ (cfgB ++ ["skill_setup"] = []) := by simp
    rw [if_neg hne]
    exact List.mem_append_right _ (by decide)

lemma getToolsForSkills_unknown (registry : List (String × List String))
    (u : String) (h : lookupA registry u = none) :
    getToolsForSkills registry [u] = getToolsForSkills registry [] := by
  unfold getToolsForSkills
  simp [h]

/-- Claim C9, confirmed.  Tool resolution — `load_tools` applied to
`get_tools_for_skills` of the active set — (a) always contains the
mandatory skill-toggling tool `skill_setup`, whatever the configuration
and active set; (b) treats an unknown skill name exactly like the empty
set (ignored, no error); (c) contains every tool declared by a known
active skill. -/
theorem claim_C9_tool_resolution :
    ∀ (registry : List (String × List String)) (cfgB cfgE : List String)
      (mt : String → Option (List String)) (active : List String),
      "skill_setup" ∈ resolveTools registry cfgB cfgE mt active
      ∧ (∀ u, lookupA registry u = none →
          resolveTools registry cfgB cfgE mt [u]
            = resolveTools registry cfgB cfgE mt [])
      ∧ (∀ sk mods m t, sk ∈ active → lookupA registry sk = some mods →
          m ∈ mods → t ∈ (mt m).getD [] →
          t ∈ resolveTools registry cfgB cfgE mt active) := by
  intro registry cfgB cfgE mt active
  refine ⟨skill_setup_mem_loadTools cfgB cfgE mt _, ?_, ?_⟩
  · intro u h
    unfold resolveTools
    rw [getToolsForSkills_unknown registry u h]
  · intro sk mods m t hsk hmod hm ht
    unfold resolveTools loadTools
    simp only [Option.getD_some]
    apply List.mem_append_right
    rw [List.mem_flatten]
    refine ⟨(mt m).getD [], ?_, ht⟩
    rw [List.mem_map]
    refine ⟨m, ?_, rfl⟩
    unfold getToolsForSkills
    rw [List.mem_dedup]
    apply List.mem_append_right
    rw [List.mem_flatten]
    refine ⟨mods, ?_, hm⟩
    rw [List.mem_map]
    refine ⟨sk, hsk, ?_⟩
    rw [hmod]
    rfl

/-- Claim C9, witness. -/
theorem claim_C9_witness :
    "skill_setup" ∈ resolveTools [("default", []), ("sgu", ["skills.sgu.tools"])]
      [] [] (fun _ => none) ["sgu"]
    ∧ resolveTools [("default", [])] [] [] (fun _ => none) ["unknown_skill"]
      = resolveTools [("default", [])] [] [] (fun _ => none) []
    ∧ "skills.sgu.tools" ∈ resolveTools [("default", []), ("sgu", ["skills.sgu.tools"])]
      [] [] (fun m => if m = "skills.sgu.tools" then some ["skills.sgu.tools"] else none)
      ["sgu"] :=
  ⟨(claim_C9_tool_resolution [("default", []), ("sgu", ["skills.sgu.tools"])] [] []
      (fun _ => none) ["sgu"]).1,
   (claim_C9_tool_resolution [("default", [])] [] [] (fun _ => none)
      ["unknown_skill"]).2.1 "unknown_skill" (by decide),
   (claim_C9_tool_resolution [("default", []), ("sgu", ["skills.sgu.tools"])] [] []
      (fun m => if m = "skills.sgu.tools" then some ["skills.sgu.tools"] else none)
      ["sgu"]).2.2 "sgu" ["skills.sgu.tools"] "skills.sgu.tools" "skills.sgu.tools"
      (by decide) (by decide) (by decide) (by decide)⟩

/-! ## Claim C10 — frontmatter parsing degrades, never raises -/

/-- Claim C10, confirmed.  `_parse_frontmatter` is total; an input that
does not begin with a well-formed `---`-delimited block (in particular
one not starting with `---`) yields empty metadata with the body equal to
the whole input; on a YAML error — or a YAML value that is not a dict —
it yields empty metadata with the post-delimiter body; and
`_discover_skills` then registers such a skill under its directory name
with empty description and no keywords. -/
theorem claim_C10_frontmatter :
    ∀ (yamlLoad : String → YamlOutcome) (content : String),
      (fmMatch content = none →
        parseFrontmatter yamlLoad content = (emptyMeta, content))
      ∧ (pyStartsWith content "---" = false → fmMatch content = none)
      ∧ (∀ y b, fmMatch content = some (y, b) →
          (yamlLoad y = .yamlError ∨ yamlLoad y = .nonDict) →
          parseFrontmatter yamlLoad content = (emptyMeta, b))
      ∧ (∀ dirName hasTools, fmMatch content = none →
          discoverSkillEntry yamlLoad dirName content hasTools =
            { name := dirName, description := "", keywords := [],
              content := content,
              toolModules :=
                if hasTools then ["skills." ++ dirName ++ ".tools"] else [] }) := by
  intro yamlLoad content
  have h1 : fmMatch content = none →
      parseFrontmatter yamlLoad content = (emptyMeta, content) := by
    intro h
    unfold parseFrontmatter
    rw [h]
  refine ⟨h1, ?_, ?_, ?_⟩
  · intro h
    unfold fmMatch
    rw [h]
    rfl
  · intro y b hm hy
    unfold parseFrontmatter
    rw [hm]
    rcases hy with hy | hy <;> simp [hy]
  · intro dirName hasTools h
    unfold discoverSkillEntry
    rw [h1 h]
    rfl

/-- Claim C10, witness. -/
theorem claim_C10_witness :
    fmMatch "plain body, no metadata" = none
    ∧ parseFrontmatter (fun _ => .yamlError) "plain body, no metadata"
        = (emptyMeta, "plain body, no metadata")
    ∧ fmMatch "---\nbad: [yaml\n---\nthe body" = some ("bad: [yaml", "the body")
    ∧ parseFrontmatter (fun _ => .yamlError) "---\nbad: [yaml\n---\nthe body"
        = (emptyMeta, "the body")
    ∧ discoverSkillEntry (fun _ => .yamlError) "sgu" "plain body, no metadata" false
        = { name := "sgu", description := "", keywords := [],
            content := "plain body, no metadata", toolModules := [] } := by
  refine ⟨by decide, ?_, by decide, ?_, ?_⟩
  · exact (claim_C10_frontmatter (fun _ => .yamlError) "plain body, no metadata").1
      (by decide)
  · exact (claim_C10_frontmatter (fun _ => .yamlError)
      "---\nbad: [yaml\n---\nthe body").2.2.1 "bad: [yaml" "the body" (by decide)
      (Or.inl rfl)
  · have := (claim_C10_frontmatter (fun _ => .yamlError)
      "plain body, no metadata").2.2.2 "sgu" false (by decide)
    simpa using this

/-! ## Claim C1 — guaranteed release on every exit path -/

/-- Claim C1, confirmed.  For every turn that acquires the per-session
lock (`acquired = true`), on every exit path — successful reply, handled
business error inside `_process_llm_response`, raised exception from the
pipeline, and even the busy-rejection raised by `finish` inside the
`try` — the `finally` block leaves the session object with the
processing flag cleared, the processing start time cleared,
`last_accessed` refreshed to the exit time, and the per-session lock
released. -/
theorem claim_C1_lock_release :
    ∀ (cfg : RespConfig) (g : GState) (tid : String) (pipe : PipeOutcome)
      (t0 tEnd : Nat),
      (handleChat cfg g tid true pipe t0 tEnd).session.processing = false
      ∧ (handleChat cfg g tid true pipe t0 tEnd).session.processingStartTime = none
      ∧ (handleChat cfg g tid true pipe t0 tEnd).session.lastAccessed = tEnd
      ∧ (handleChat cfg g tid true pipe t0 tEnd).session.lockLocked = false := by
  intro cfg g tid pipe t0 tEnd
  unfold handleChat
  simp only [Bool.not_true]
  rw [if_neg (fun h => Bool.false_ne_true h)]
  split <;> simp [Session.endProcessing]

/-! ## Session-lock lemmas -/

lemma tryAcquireLock_of_timeout (s2 : Session) (now : Nat)
    (h : s2.isProcessingTimeout now = true) (hp : s2.processing = true) :
    s2.tryAcquireLock now =
      (true, { s2 with processing := false, processingStartTime := none }) := by
  unfold Session.tryAcquireLock
  rw [if_pos hp, if_pos h]

lemma tryAcquireLock_not_processing (s2 : Session) (now : Nat)
    (hp : s2.processing = false) : s2.tryAcquireLock now = (true, s2) := by
  unfold Session.tryAcquireLock
  rw [if_neg (by simp [hp])]

lemma tryAcquireLock_busy (s2 : Session) (now : Nat) (hp : s2.processing = true)
    (h : s2.isProcessingTimeout now = false) :
    s2.tryAcquireLock now = (false, s2) := by
  unfold Session.tryAcquireLock
  rw [if_pos hp, if_neg (by simp [h])]

lemma isProcessingTimeout_congr (a b : Session) (now : Nat)
    (h1 : a.processing = b.processing)
    (h2 : a.processingStartTime = b.processingStartTime) :
    a.isProcessingTimeout now = b.isProcessingTimeout now := by
  unfold Session.isProcessingTimeout
  rw [h1, h2]

lemma isProcessingTimeout_of_stale (s2 : Session) (now ts : Nat)
    (hp : s2.processing = true) (hs : s2.processingStartTime = some ts)
    (hst : now - ts > 60) : s2.isProcessingTimeout now = true := by
  unfold Session.isProcessingTimeout
  rw [hp, hs]
  simp [hst]

lemma getOrCreateSession_no_sweep (g : GState) (tid : String) (t0 : Nat)
    (s : Session) (hlk : lookupA g.sessions tid = some s)
    (hsw : t0 - g.lastCleanupTime ≤ cleanupInterval) :
    getOrCreateSession g tid t0 =
      ({ g with sessions := setKey g.sessions tid (s.refresh t0) }, s.refresh t0) := by
  have hns : ¬ (t0 - g.lastCleanupTime > cleanupInterval) := not_lt.mpr hsw
  unfold getOrCreateSession
  rw [if_neg hns]
  simp only [hlk]

/-! ## Claim C2 — recovery from a stale processing flag -/

/-- Claim C2, counterexample.  A session whose processing flag has been set
for more than 60 seconds is *not* always recovered by the next request:
when the stuck task still holds the underlying `asyncio.Lock` (the usual
way a flag stays set that long — a model call that hangs), the next
request's 1-second `wait_for` times out and the user is told the session
is busy; nothing proceeds and the stale flag survives. -/
theorem claim_C2_counterexample :
    ((100 : Nat) - 0 > 60)
    ∧ (handleChat ⟨"busy", "tok", "gen", "empty"⟩
        ⟨[("t", { mkSession "t" 0 with processing := true, processingStartTime := some 0, lockLocked := true })], 0⟩
        "t" false (.ok []) 100 101).sent = ["busy"]
    ∧ (handleChat ⟨"busy", "tok", "gen", "empty"⟩
        ⟨[("t", { mkSession "t" 0 with processing := true, processingStartTime := some 0, lockLocked := true })], 0⟩
        "t" false (.ok []) 100 101).invokedPipeline = false
    ∧ (handleChat ⟨"busy", "tok", "gen", "empty"⟩
        ⟨[("t", { mkSession "t" 0 with processing := true, processingStartTime := some 0, lockLocked := true })], 0⟩
        "t" false (.ok []) 100 101).session.processing = true := by
  refine ⟨by decide, by decide, by decide, by decide⟩

/-- Claim C2, amended.  Provided the per-session `asyncio.Lock` itself is
acquired within the 1-second timeout (`acquired = true`) — i.e. the stuck
holder no longer holds the underlying lock — a request against a session
whose processing flag has been set for more than 60 seconds does recover
it without manual reset: `try_acquire_lock` clears the stale flag and
start time and reports success, and the turn proceeds to invoke the
pipeline instead of reporting busy.  (Stated for a request landing
between cleanup sweeps; a sweep would replace the expired session by a
fresh one, which also proceeds.) -/
theorem claim_C2_amended :
    ∀ (cfg : RespConfig) (g : GState) (tid : String) (s : Session)
      (pipe : PipeOutcome) (t0 tEnd ts : Nat),
      lookupA g.sessions tid = some s →
      t0 - g.lastCleanupTime ≤ cleanupInterval →
      s.processing = true →
      s.processingStartTime = some ts →
      t0 - ts > 60 →
      (handleChat cfg g tid true pipe t0 tEnd).invokedPipeline = true
      ∧ (s.tryAcquireLock t0).1 = true
      ∧ (s.tryAcquireLock t0).2.processing = false
      ∧ (s.tryAcquireLock t0).2.processingStartTime = none := by
  intro cfg g tid s pipe t0 tEnd ts hlk hsw hproc hstart hstale
  have hts : s.isProcessingTimeout t0 = true :=
    isProcessingTimeout_of_stale s t0 ts hproc hstart hstale
  have hta := tryAcquireLock_of_timeout s t0 hts hproc
  have htime : ({ s.refresh t0 with lockLocked := true } : Session).isProcessingTimeout
      t0 = true := by
    have hc := isProcessingTimeout_congr
      ({ s.refresh t0 with lockLocked := true } : Session) s t0 rfl rfl
    rw [hc]
    exact hts
  have hacq := tryAcquireLock_of_timeout
    ({ s.refresh t0 with lockLocked := true } : Session) t0 htime hproc
  refine ⟨?_, by rw [hta], by rw [hta], by rw [hta]⟩
  unfold handleChat
  rw [getOrCreateSession_no_sweep g tid t0 s hlk hsw]
  simp [hacq]

/-- Claim C2, amended, witness. -/
theorem claim_C2_amended_witness :
    (lookupA ([("t", { mkSession "t" 0 with processing := true, processingStartTime := some 0 })] : SessionsMap) "t"
      = some { mkSession "t" 0 with processing := true, processingStartTime := some 0 })
    ∧ (100 : Nat) - 40 ≤ cleanupInterval
    ∧ (handleChat ⟨"busy", "tok", "gen", "empty"⟩
        ⟨[("t", { mkSession "t" 0 with processing := true, processingStartTime := some 0 })], 40⟩
        "t" true (.ok [Msg.human "hi", Msg.ai (.ofStr "yo") [] none]) 100
        101).invokedPipeline = true :=
  ⟨by decide, by decide,
    (claim_C2_amended ⟨"busy", "tok", "gen", "empty"⟩
      ⟨[("t", { mkSession "t" 0 with processing := true, processingStartTime := some 0 })], 40⟩
      "t" { mkSession "t" 0 with processing := true, processingStartTime := some 0 }
      (.ok [Msg.human "hi", Msg.ai (.ofStr "yo") [] none]) 100 101 0
      (by decide) (by decide) (by decide) (by decide) (by decide)).1⟩

/-! ## Claim C6 — state effects of the two busy paths -/

/-- Claim C6, counterexample.  When the lock is acquired but the session is
already processing and not timed out (start 50, now 60), the claim says
the busy reply is sent and the in-flight processing flag and start time
are left unchanged.  In the code, `chat_handler.finish(busy)` raises
`FinishedException` inside the `try`; the generic `except Exception`
catches it, `_handle_langgraph_error` deletes the session and a second
(generic-error) reply is sent, and the `finally` block clears the
processing flag and start time. -/
theorem claim_C6_counterexample :
    (({ mkSession "t" 0 with processing := true, processingStartTime := some 50 } :
        Session).isProcessingTimeout 60 = false)
    ∧ (handleChat ⟨"busy", "tok", "gen", "empty"⟩
        ⟨[("t", { mkSession "t" 0 with processing := true, processingStartTime := some 50 })], 0⟩
        "t" true (.ok []) 60 61).sent = ["busy", "gen"]
    ∧ (handleChat ⟨"busy", "tok", "gen", "empty"⟩
        ⟨[("t", { mkSession "t" 0 with processing := true, processingStartTime := some 50 })], 0⟩
        "t" true (.ok []) 60 61).session.processing = false
    ∧ (handleChat ⟨"busy", "tok", "gen", "empty"⟩
        ⟨[("t", { mkSession "t" 0 with processing := true, processingStartTime := some 50 })], 0⟩
        "t" true (.ok []) 60 61).session.processingStartTime = none
    ∧ lookupA (handleChat ⟨"busy", "tok", "gen", "empty"⟩
        ⟨[("t", { mkSession "t" 0 with processing := true, processingStartTime := some 50 })], 0⟩
        "t" true (.ok []) 60 61).state.sessions "t" = none := by
  refine ⟨by decide, by decide, by decide, by decide, by decide⟩

/-- Claim C6, amended.  The two busy paths behave differently.  (i) When
the 1-second lock acquisition times out, the busy message is the only
reply, the pipeline is not invoked, and no session state changes beyond
refreshing `last_accessed` — the in-flight flag and start time are left
unchanged and all other store entries are untouched.  (ii) When the lock
is acquired but the session is already processing and not timed out, the
busy reply is followed by the generic-error reply, the session is
deleted from the store, and the turn's `finally` clears the processing
flag and start time and releases the lock — they are not left unchanged
(the `finish` exception is caught by the turn's generic handler).  Both
parts are stated for requests landing between cleanup sweeps. -/
theorem claim_C6_amended :
    (∀ (cfg : RespConfig) (g : GState) (tid : String) (s : Session)
      (pipe : PipeOutcome) (t0 tEnd : Nat),
      lookupA g.sessions tid = some s →
      t0 - g.lastCleanupTime ≤ cleanupInterval →
      (handleChat cfg g tid false pipe t0 tEnd).sent = [cfg.sessionBusyMessage]
      ∧ (handleChat cfg g tid false pipe t0 tEnd).invokedPipeline = false
      ∧ lookupA (handleChat cfg g tid false pipe t0 tEnd).state.sessions tid
          = some (s.refresh t0)
      ∧ (∀ k, k ≠ tid →
          lookupA (handleChat cfg g tid false pipe t0 tEnd).state.sessions k
            = lookupA g.sessions k)
      ∧ (handleChat cfg g tid false pipe t0 tEnd).session.processing = s.processing
      ∧ (handleChat cfg g tid false pipe t0 tEnd).session.processingStartTime
          = s.processingStartTime)
    ∧ (∀ (cfg : RespConfig) (g : GState) (tid : String) (s : Session)
      (pipe : PipeOutcome) (t0 tEnd : Nat),
      lookupA g.sessions tid = some s →
      t0 - g.lastCleanupTime ≤ cleanupInterval →
      s.processing = true →
      s.isProcessingTimeout t0 = false →
      (handleChat cfg g tid true pipe t0 tEnd).sent
          = [cfg.sessionBusyMessage, cfg.generalError]
      ∧ (handleChat cfg g tid true pipe t0 tEnd).invokedPipeline = false
      ∧ lookupA (handleChat cfg g tid true pipe t0 tEnd).state.sessions tid = none
      ∧ (handleChat cfg g tid true pipe t0 tEnd).session.processing = false
      ∧ (handleChat cfg g tid true pipe t0 tEnd).session.processingStartTime = none
      ∧ (handleChat cfg g tid true pipe t0 tEnd).session.lockLocked = false) := by
  constructor
  · intro cfg g tid s pipe t0 tEnd hlk hsw
    unfold handleChat
    rw [getOrCreateSession_no_sweep g tid t0 s hlk hsw]
    split
    · dsimp only
      refine ⟨rfl, rfl, ?_, ?_, rfl, rfl⟩
      · rw [lookupA_setKey_self, hlk]
        rfl
      · intro k hk
        exact lookupA_setKey_ne g.sessions tid (s.refresh t0) k hk
    · next h => simp at h
  · intro cfg g tid s pipe t0 tEnd hlk hsw hproc hto
    have htime : ({ s.refresh t0 with lockLocked := true } : Session).isProcessingTimeout
        t0 = false := by
      have hc := isProcessingTimeout_congr
        ({ s.refresh t0 with lockLocked := true } : Session) s t0 rfl rfl
      rw [hc]
      exact hto
    have hacq := tryAcquireLock_busy
      ({ s.refresh t0 with lockLocked := true } : Session) t0 hproc htime
    have hsig : strContains (PyExc.toStr .finishedExc) listStripSignature = false := by
      decide
    unfold handleChat
    rw [getOrCreateSession_no_sweep g tid t0 s hlk hsw]
    simp only [Bool.not_true]
    rw [if_neg (fun h => Bool.false_ne_true h)]
    simp only [hacq]
    unfold handleLanggraphError
    rw [hsig]
    simp only [Bool.false_eq_true, if_false, lookupA_eraseKey_self, Option.isNone_none,
      if_pos rfl]
    exact ⟨rfl, rfl, lookupA_eraseKey_self _ _, rfl, rfl, rfl⟩

/-- Claim C6, amended, witness. -/
theorem claim_C6_amended_witness :
    (lookupA ([("t", mkSession "t" 7)] : SessionsMap) "t" = some (mkSession "t" 7))
    ∧ (20 : Nat) - 0 ≤ cleanupInterval
    ∧ (mkSession "t" 7).processing = false
    ∧ (handleChat ⟨"busy", "tok", "gen", "empty"⟩ ⟨[("t", mkSession "t" 7)], 0⟩
        "t" false (.ok []) 20 21).sent = ["busy"]
    ∧ (({ mkSession "u" 0 with processing := true, processingStartTime := some 50 } :
        Session).isProcessingTimeout 60 = false)
    ∧ (handleChat ⟨"busy", "tok", "gen", "empty"⟩
        ⟨[("u", { mkSession "u" 0 with processing := true, processingStartTime := some 50 })], 0⟩
        "u" true (.ok []) 60 61).sent = ["busy", "gen"] :=
  ⟨by decide, by decide, by decide,
    ((claim_C6_amended.1 ⟨"busy", "tok", "gen", "empty"⟩ ⟨[("t", mkSession "t" 7)], 0⟩
      "t" (mkSession "t" 7) (.ok []) 20 21 (by decide) (by decide)).1),
    by decide,
    ((claim_C6_amended.2 ⟨"busy", "tok", "gen", "empty"⟩
      ⟨[("u", { mkSession "u" 0 with processing := true, processingStartTime := some 50 })], 0⟩
      "u" { mkSession "u" 0 with processing := true, processingStartTime := some 50 }
      (.ok []) 60 61 (by decide) (by decide) (by decide) (by decide)).1)⟩

/-! ## Claim C3 — session deletion on empty/blocked replies and errors -/

lemma processLlm_empty (cfg : RespConfig) (msgs : List Msg) (tid : String)
    (store : SessionsMap) (c : AiContent) (fr : Option String)
    (hlast : msgs.getLast? = some (Msg.ai c [] fr))
    (hemp : aiContentEmpty c = true) :
    processLlmResponse cfg msgs tid store =
      .ok ((if fr = some "SAFETY" then safetyBlockedReply else didNotUnderstandReply),
        eraseKey store tid) := by
  unfold processLlmResponse
  rw [hlast]
  cases c with
  | ofStr s =>
    have hs : pyStrip s = "" := by simpa [aiContentEmpty] using hemp
    by_cases hfr : fr = some "SAFETY" <;> simp [hs, hfr]
  | ofList items =>
    have hit : items = [] := by
      cases items with
      | nil => rfl
      | cons a t => simp [aiContentEmpty] at hemp
    subst hit
    by_cases hfr : fr = some "SAFETY" <;> simp [hfr]

lemma processLlm_listcontent (cfg : RespConfig) (msgs : List Msg) (tid : String)
    (store : SessionsMap) (x : String) (xs : List String) (fr : Option String)
    (hlast : msgs.getLast? = some (Msg.ai (.ofList (x :: xs)) [] fr)) :
    processLlmResponse cfg msgs tid store = .error .listStripAttrError := by
  unfold processLlmResponse
  rw [hlast]

/-- Decomposition of a non-busy turn of `handle_chat`. -/
lemma handleChat_run (cfg : RespConfig) (g : GState) (tid : String)
    (pipe : PipeOutcome) (t0 tEnd : Nat) (hnb : turnNotBusy g tid t0) :
    (handleChat cfg g tid true pipe t0 tEnd).sent
        = [(turnReply cfg g tid pipe t0).1]
    ∧ (handleChat cfg g tid true pipe t0 tEnd).invokedPipeline = true
    ∧ (handleChat cfg g tid true pipe t0 tEnd).state.sessions
        = (if (lookupA (turnReply cfg g tid pipe t0).2 tid).isNone = true
           then (turnReply cfg g tid pipe t0).2
           else setKey (turnReply cfg g tid pipe t0).2 tid
             (turnFinalSession g tid t0 tEnd)) := by
  unfold handleChat
  simp only [Bool.not_true]
  rw [if_neg (fun h => Bool.false_ne_true h)]
  split
  · next h =>
    unfold turnNotBusy at hnb
    rw [hnb] at h
    simp at h
  · exact ⟨rfl, rfl, rfl⟩

/-- Claim C3, counterexample.  The claim covers every turn whose final
reply has empty content.  An `AIMessage` with empty content *and*
invalid tool calls is interpreted as a malformed tool call instead
(checked first): the reply is the tool-call-failure message — none of
the four fixed messages — and the session is *not* deleted. -/
theorem claim_C3_counterexample :
    processLlmResponse ⟨"busy", "tok", "gen", "empty"⟩
        [Msg.ai (.ofStr "") [some "boom"] none] "t" [("t", mkSession "t" 5)]
      = .ok ("工具调用失败: boom", [("t", mkSession "t" 5)])
    ∧ (lookupA ([("t", mkSession "t" 5)] : SessionsMap) "t").isSome := by
  refine ⟨by rfl, by decide⟩

/-- Claim C3, amended.  For every turn that reaches the pipeline (is not
turned away busy) and whose final reply has empty or safety-blocked
content *while reporting no invalid tool calls*, and for every turn in
which the pipeline raises, the session is deleted from the store (so the
next message starts fresh) and the reply is the fixed message for the
case: the safety-block message, the generic "did not understand"
message, the configured context-too-large message when the error text
contains the list-strip attribute-error text (also raised by
`content.strip()` on a list-valued content), or the configured generic
error message. -/
theorem claim_C3_amended :
    ∀ (cfg : RespConfig) (g : GState) (tid : String) (t0 tEnd : Nat),
      turnNotBusy g tid t0 →
      (∀ msgs c fr, msgs.getLast? = some (Msg.ai c [] fr) →
        aiContentEmpty c = true →
        (handleChat cfg g tid true (.ok msgs) t0 tEnd).sent
            = [if fr = some "SAFETY" then safetyBlockedReply
               else didNotUnderstandReply]
        ∧ lookupA (handleChat cfg g tid true (.ok msgs) t0 tEnd).state.sessions
            tid = none)
      ∧ (∀ msgs x xs fr,
          msgs.getLast? = some (Msg.ai (.ofList (x :: xs)) [] fr) →
          (handleChat cfg g tid true (.ok msgs) t0 tEnd).sent
              = [cfg.tokenLimitError]
          ∧ lookupA (handleChat cfg g tid true (.ok msgs) t0 tEnd).state.sessions
              tid = none)
      ∧ (∀ em,
          (handleChat cfg g tid true (.exc em) t0 tEnd).sent
              = [if strContains em listStripSignature then cfg.tokenLimitError
                 else cfg.generalError]
          ∧ lookupA (handleChat cfg g tid true (.exc em) t0 tEnd).state.sessions
              tid = none) := by
  intro cfg g tid t0 tEnd hnb
  refine ⟨?_, ?_, ?_⟩
  · intro msgs c fr hlast hemp
    have h1 : turnReply cfg g tid (.ok msgs) t0
        = ((if fr = some "SAFETY" then safetyBlockedReply else didNotUnderstandReply),
          eraseKey (turnStore2 g tid t0) tid) := by
      unfold turnReply
      dsimp only
      rw [processLlm_empty cfg msgs tid (turnStore2 g tid t0) c fr hlast hemp]
    obtain ⟨hs, _, hst⟩ := handleChat_run cfg g tid (.ok msgs) t0 tEnd hnb
    refine ⟨?_, ?_⟩
    · rw [hs, h1]
    · rw [hst, h1]
      simp [lookupA_eraseKey_self]
  · intro msgs x xs fr hlast
    have hsig : strContains (PyExc.toStr .listStripAttrError) listStripSignature
        = true := by decide
    have h1 : turnReply cfg g tid (.ok msgs) t0
        = (cfg.tokenLimitError, eraseKey (turnStore2 g tid t0) tid) := by
      unfold turnReply
      dsimp only
      rw [processLlm_listcontent cfg msgs tid (turnStore2 g tid t0) x xs fr hlast]
      unfold handleLanggraphError
      dsimp only
      rw [hsig]
      rfl
    obtain ⟨hs, _, hst⟩ := handleChat_run cfg g tid (.ok msgs) t0 tEnd hnb
    refine ⟨?_, ?_⟩
    · rw [hs, h1]
    · rw [hst, h1]
      simp [lookupA_eraseKey_self]
  · intro em
    have h1 : turnReply cfg g tid (.exc em) t0
        = ((if strContains em listStripSignature then cfg.tokenLimitError
            else cfg.generalError), eraseKey (turnStore2 g tid t0) tid) := by
      unfold turnReply handleLanggraphError PyExc.toStr
      rfl
    obtain ⟨hs, _, hst⟩ := handleChat_run cfg g tid (.exc em) t0 tEnd hnb
    refine ⟨?_, ?_⟩
    · rw [hs, h1]
    · rw [hst, h1]
      simp [lookupA_eraseKey_self]

/-- Claim C3, amended, witness. -/
theorem claim_C3_amended_witness :
    turnNotBusy ⟨[], 0⟩ "private_42" 5
    ∧ (handleChat ⟨"busy", "tok", "gen", "empty"⟩ ⟨[], 0⟩ "private_42" true
        (.ok [Msg.human "hi", Msg.ai (.ofStr " ") [] (some "SAFETY")]) 5 6).sent
        = [safetyBlockedReply]
    ∧ lookupA (handleChat ⟨"busy", "tok", "gen", "empty"⟩ ⟨[], 0⟩ "private_42" true
        (.ok [Msg.human "hi", Msg.ai (.ofStr " ") [] (some "SAFETY")]) 5
        6).state.sessions "private_42" = none := by
  have happ := (claim_C3_amended ⟨"busy", "tok", "gen", "empty"⟩ ⟨[], 0⟩
    "private_42" 5 6 (by unfold turnNotBusy; decide)).1
    [Msg.human "hi", Msg.ai (.ofStr " ") [] (some "SAFETY")]
    (.ofStr " ") (some "SAFETY") (by decide) (by decide)
  exact ⟨by unfold turnNotBusy; decide, by simpa using happ.1, happ.2⟩

/-! ## Claim C7 — trimming window properties -/

lemma dropWhile_head_false {α : Type} (p : α → Bool) :
    ∀ (l : List α) (x : α) (t : List α), l.dropWhile p = x :: t → p x = false := by
  intro l
  induction l with
  | nil =>
    intro x t h
    simp [List.dropWhile] at h
  | cons a l ih =>
    intro x t h
    rw [List.dropWhile_cons] at h
    by_cases hp : p a = true
    · rw [if_pos hp] at h
      exact ih x t h
    · rw [if_neg hp] at h
      injection h with h1 h2
      subst h1
      simpa using hp

lemma dropWhile_is_suffix {α : Type} (p : α → Bool) (l : List α) :
    l.dropWhile p <:+ l := by
  induction l with
  | nil => simp
  | cons a l ih =>
    rw [List.dropWhile_cons]
    by_cases hp : p a = true
    · rw [if_pos hp]
      exact ih.trans (List.suffix_cons a l)
    · rw [if_neg hp]

lemma takeLast_suffix (k : Nat) (xs : List Msg) : takeLast k xs <:+ xs :=
  List.drop_suffix _ _

lemma suffix_getLast?_eq {α : Type} (s l : List α) (hs : s <:+ l) (hne : s ≠ []) :
    l.getLast? = s.getLast? := by
  obtain ⟨u, rfl⟩ := hs
  induction u with
  | nil => rfl
  | cons a u ih =>
    rw [List.cons_append]
    have hns : u ++ s ≠ [] := fun hcon => hne (List.append_eq_nil.mp hcon).2
    have h2 : (a :: (u ++ s)).getLast? = (u ++ s).getLast? := by
      rcases hcons : u ++ s with _ | ⟨b, t⟩
      · exact absurd hcons hns
      · rw [List.getLast?_cons_cons]
    rw [h2]
    exact ih

lemma mem_of_getLast?A {α : Type} :
    ∀ (l : List α) (a : α), l.getLast? = some a → a ∈ l := by
  intro l
  induction l with
  | nil =>
    intro a h
    simp at h
  | cons x t ih =>
    intro a h
    cases t with
    | nil =>
      simp [List.getLast?] at h
      simp [h]
    | cons y u =>
      rw [List.getLast?_cons_cons] at h
      exact List.mem_cons_of_mem x (ih a h)

lemma popped_decomp (ms : List Msg) :
    ∃ junk : List Msg,
      ms = (ms.reverse.dropWhile (fun m => !(m.isHuman || m.isTool))).reverse ++ junk
      ∧ ∀ x ∈ junk, x.isHuman = false := by
  refine ⟨(ms.reverse.takeWhile (fun m => !(m.isHuman || m.isTool))).reverse, ?_, ?_⟩
  · have h := List.takeWhile_append_dropWhile
      (p := fun m => !(m.isHuman || m.isTool)) (l := ms.reverse)
    calc ms = ms.reverse.reverse := (List.reverse_reverse ms).symm
      _ = (ms.reverse.takeWhile (fun m => !(m.isHuman || m.isTool))
            ++ ms.reverse.dropWhile (fun m => !(m.isHuman || m.isTool))).reverse := by
          rw [h]
      _ = (ms.reverse.dropWhile (fun m => !(m.isHuman || m.isTool))).reverse
            ++ (ms.reverse.takeWhile (fun m => !(m.isHuman || m.isTool))).reverse := by
          rw [List.reverse_append]
  · intro x hx
    have hx2 : x ∈ ms.reverse.takeWhile (fun m => !(m.isHuman || m.isTool)) :=
      (List.mem_reverse).mp hx
    have hq := List.mem_takeWhile_imp hx2
    simp only [Bool.not_eq_true'] at hq
    simp only [Bool.or_eq_false_iff] at hq
    exact hq.1

lemma filter_human_popped (ms : List Msg) :
    ms.filter Msg.isHuman
      = ((ms.reverse.dropWhile (fun m => !(m.isHuman || m.isTool))).reverse).filter
          Msg.isHuman := by
  obtain ⟨junk, hdec, hjunk⟩ := popped_decomp ms
  conv_lhs => rw [hdec]
  rw [List.filter_append]
  have hj : junk.filter Msg.isHuman = [] := by
    rw [List.filter_eq_nil_iff]
    intro a ha
    simp [hjunk a ha]
  rw [hj, List.append_nil]

lemma popped_getLast (ms : List Msg) (m : Msg)
    (h : ((ms.reverse.dropWhile (fun m => !(m.isHuman || m.isTool))).reverse).getLast?
      = some m) : m.isHuman = true ∨ m.isTool = true := by
  rw [List.getLast?_reverse] at h
  rcases hD : ms.reverse.dropWhile (fun m => !(m.isHuman || m.isTool)) with _ | ⟨x, t⟩
  · rw [hD] at h
    simp at h
  · rw [hD] at h
    simp only [List.head?_cons, Option.some.injEq] at h
    subst h
    have hq := dropWhile_head_false (fun m => !(m.isHuman || m.isTool)) ms.reverse x t hD
    simp only [Bool.not_eq_false'] at hq
    exact Bool.or_eq_true_iff.mp hq

lemma popped_prefix (ms : List Msg) :
    (ms.reverse.dropWhile (fun m => !(m.isHuman || m.isTool))).reverse <+: ms := by
  obtain ⟨junk, hdec, _⟩ := popped_decomp ms
  exact ⟨junk, hdec.symm⟩

lemma wlist_head (k : Nat) (xs : List Msg) (h : Msg) (t : List Msg)
    (hw : (takeLast k xs).dropWhile (fun m => !m.isHuman) = h :: t) :
    h.isHuman = true := by
  have := dropWhile_head_false (fun m => !m.isHuman) (takeLast k xs) h t hw
  simpa using this

lemma wlist_suffix (k : Nat) (xs : List Msg) :
    (takeLast k xs).dropWhile (fun m => !m.isHuman) <:+ xs :=
  (dropWhile_is_suffix _ _).trans (takeLast_suffix k xs)

lemma wlist_getLast (k : Nat) (xs : List Msg)
    (hne : (takeLast k xs).dropWhile (fun m => !m.isHuman) ≠ []) :
    xs.getLast? = ((takeLast k xs).dropWhile (fun m => !m.isHuman)).getLast? :=
  suffix_getLast?_eq _ _ (wlist_suffix k xs) hne

lemma wlist_recent (k : Nat) (xs : List Msg) (hm : Msg)
    (hlast : (xs.filter Msg.isHuman).getLast? = some hm)
    (hne : (takeLast k xs).dropWhile (fun m => !m.isHuman) ≠ []) :
    hm ∈ (takeLast k xs).dropWhile (fun m => !m.isHuman) := by
  obtain ⟨u, hu⟩ := wlist_suffix k xs
  have hfilter : xs.filter Msg.isHuman
      = u.filter Msg.isHuman
        ++ ((takeLast k xs).dropWhile (fun m => !m.isHuman)).filter Msg.isHuman := by
    conv_lhs => rw [← hu]
    rw [List.filter_append]
  rcases hw : (takeLast k xs).dropWhile (fun m => !m.isHuman) with _ | ⟨h, t⟩
  · exact absurd hw hne
  have hh := wlist_head k xs h t hw
  have hfne : ((takeLast k xs).dropWhile (fun m => !m.isHuman)).filter Msg.isHuman
      ≠ [] := by
    rw [hw]
    simp [List.filter_cons, hh]
  have hshift : (u.filter Msg.isHuman
      ++ ((takeLast k xs).dropWhile (fun m => !m.isHuman)).filter Msg.isHuman).getLast?
      = (((takeLast k xs).dropWhile (fun m => !m.isHuman)).filter Msg.isHuman).getLast? :=
    suffix_getLast?_eq _ _ ⟨u.filter Msg.isHuman, rfl⟩ hfne
  rw [hfilter, hshift] at hlast
  have hmem := mem_of_getLast?A _ _ hlast
  exact (List.mem_filter.mp hmem).1

lemma trimLast_nil_of (budget : Nat) (ms : List Msg)
    (hP : (ms.reverse.dropWhile (fun m => !(m.isHuman || m.isTool))).reverse = []) :
    trimLast budget ms = [] := by
  unfold trimLast
  rw [hP]

lemma trimLast_eq_sys (budget : Nat) (ms : List Msg) (m0 : Msg) (rest : List Msg)
    (hP : (ms.reverse.dropWhile (fun m => !(m.isHuman || m.isTool))).reverse
      = m0 :: rest) (hsys : m0.isSystem = true) :
    trimLast budget ms =
      (if ((takeLast (budget - 1) rest).dropWhile (fun m => !m.isHuman)).isEmpty
       then []
       else m0 :: (takeLast (budget - 1) rest).dropWhile (fun m => !m.isHuman)) := by
  unfold trimLast
  rw [hP]
  dsimp only
  rw [if_pos hsys]

lemma trimLast_eq_nonsys (budget : Nat) (ms : List Msg) (m0 : Msg) (rest : List Msg)
    (hP : (ms.reverse.dropWhile (fun m => !(m.isHuman || m.isTool))).reverse
      = m0 :: rest) (hsys : m0.isSystem = false) :
    trimLast budget ms
      = (takeLast budget (m0 :: rest)).dropWhile (fun m => !m.isHuman) := by
  unfold trimLast
  rw [hP]
  dsimp only
  rw [if_neg (by simp [hsys])]

lemma trimLast_ends (budget : Nat) (ms : List Msg) :
    ∀ m, (trimLast budget ms).getLast? = some m →
      m.isHuman = true ∨ m.isTool = true := by
  intro m h
  rcases hP : (ms.reverse.dropWhile (fun m => !(m.isHuman || m.isTool))).reverse
    with _ | ⟨m0, rest⟩
  · rw [trimLast_nil_of budget ms hP] at h
    simp at h
  · by_cases hsys : m0.isSystem = true
    · rw [trimLast_eq_sys budget ms m0 rest hP hsys] at h
      by_cases hw : ((takeLast (budget - 1) rest).dropWhile
          (fun m => !m.isHuman)).isEmpty = true
      · rw [if_pos hw] at h
        simp at h
      · rw [if_neg hw] at h
        have hwne : (takeLast (budget - 1) rest).dropWhile (fun m => !m.isHuman)
            ≠ [] := by
          simpa [List.isEmpty_iff] using hw
        have hcons : (m0 :: (takeLast (budget - 1) rest).dropWhile
            (fun m => !m.isHuman)).getLast?
            = ((takeLast (budget - 1) rest).dropWhile (fun m => !m.isHuman)).getLast? := by
          rcases hwc : (takeLast (budget - 1) rest).dropWhile (fun m => !m.isHuman)
            with _ | ⟨b, t⟩
          · exact absurd hwc hwne
          · rw [hwc, List.getLast?_cons_cons]
        rw [hcons] at h
        have h2 : rest.getLast? = some m := by
          rw [wlist_getLast (budget - 1) rest hwne]
          exact h
        have hrne : rest ≠ [] := by
          intro hre
          apply hwne
          rw [hre]
          simp [takeLast]
        have h3 : ((ms.reverse.dropWhile
            (fun m => !(m.isHuman || m.isTool))).reverse).getLast? = some m := by
          rw [hP]
          have hcons2 : (m0 :: rest).getLast? = rest.getLast? := by
            rcases hrc : rest with _ | ⟨c, u⟩
            · exact absurd hrc hrne
            · rw [List.getLast?_cons_cons]
          rw [hcons2]
          exact h2
        exact popped_getLast ms m h3
    · have hsys2 : m0.isSystem = false := by
        simpa using hsys
      rw [trimLast_eq_nonsys budget ms m0 rest hP hsys2] at h
      have hne : (takeLast budget (m0 :: rest)).dropWhile (fun m => !m.isHuman)
          ≠ [] := by
        intro he
        rw [he] at h
        simp at h
      have h2 : (m0 :: rest).getLast? = some m := by
        rw [wlist_getLast budget (m0 :: rest) hne]
        exact h
      have h3 : ((ms.reverse.dropWhile
          (fun m => !(m.isHuman || m.isTool))).reverse).getLast? = some m := by
        rw [hP]
        exact h2
      exact popped_getLast ms m h3

lemma trimLast_starts (budget : Nat) (ms : List Msg) :
    ∀ m rest2, trimLast budget ms = m :: rest2 →
      m.isHuman = true
      ∨ (m.isSystem = true ∧ ∃ h2 t2, rest2 = h2 :: t2 ∧ h2.isHuman = true) := by
  intro m rest2 h
  rcases hP : (ms.reverse.dropWhile (fun m => !(m.isHuman || m.isTool))).reverse
    with _ | ⟨m0, rest⟩
  · rw [trimLast_nil_of budget ms hP] at h
    exact absurd h.symm (List.cons_ne_nil m rest2)
  · by_cases hsys : m0.isSystem = true
    · rw [trimLast_eq_sys budget ms m0 rest hP hsys] at h
      by_cases hw : ((takeLast (budget - 1) rest).dropWhile
          (fun m => !m.isHuman)).isEmpty = true
      · rw [if_pos hw] at h
        exact absurd h.symm (List.cons_ne_nil m rest2)
      · rw [if_neg hw] at h
        injection h with h1 h2
        subst h1
        subst h2
        right
        refine ⟨hsys, ?_⟩
        rcases hwc : (takeLast (budget - 1) rest).dropWhile (fun m => !m.isHuman)
          with _ | ⟨b, t⟩
        · rw [hwc] at hw
          simp at hw
        · exact ⟨b, t, hwc, wlist_head _ _ _ _ hwc⟩
    · have hsys2 : m0.isSystem = false := by
        simpa using hsys
      rw [trimLast_eq_nonsys budget ms m0 rest hP hsys2] at h
      exact Or.inl (wlist_head budget (m0 :: rest) m rest2 h)

lemma trimLast_system (budget : Nat) (ms : List Msg) :
    ∀ m0 tl, ms = m0 :: tl → m0.isSystem = true → trimLast budget ms ≠ [] →
      (trimLast budget ms).head? = some m0 := by
  intro m0 tl hms hsys hne
  rcases hP : (ms.reverse.dropWhile (fun m => !(m.isHuman || m.isTool))).reverse
    with _ | ⟨p0, rest⟩
  · exact absurd (trimLast_nil_of budget ms hP) hne
  · have hpre := popped_prefix ms
    rw [hP] at hpre
    obtain ⟨u, hu⟩ := hpre
    rw [hms, List.cons_append] at hu
    have hp0 : p0 = m0 := by
      injection hu with h1 _
    subst hp0
    rw [trimLast_eq_sys budget ms p0 rest hP hsys] at hne ⊢
    by_cases hw : ((takeLast (budget - 1) rest).dropWhile
        (fun m => !m.isHuman)).isEmpty = true
    · rw [if_pos hw] at hne
      exact absurd rfl hne
    · rw [if_neg hw]
      rfl

lemma trimLast_recent (budget : Nat) (ms : List Msg) :
    ∀ hm, (ms.filter Msg.isHuman).getLast? = some hm → trimLast budget ms ≠ [] →
      hm ∈ trimLast budget ms := by
  intro hm hlast hne
  have hfp := filter_human_popped ms
  rcases hP : (ms.reverse.dropWhile (fun m => !(m.isHuman || m.isTool))).reverse
    with _ | ⟨m0, rest⟩
  · exact absurd (trimLast_nil_of budget ms hP) hne
  · rw [hP] at hfp
    by_cases hsys : m0.isSystem = true
    · have hm0 : m0.isHuman = false := by
        cases m0 <;> simp_all [Msg.isSystem, Msg.isHuman]
      have hfp2 : ms.filter Msg.isHuman = rest.filter Msg.isHuman := by
        rw [hfp]
        simp [List.filter_cons, hm0]
      rw [trimLast_eq_sys budget ms m0 rest hP hsys] at hne ⊢
      by_cases hw : ((takeLast (budget - 1) rest).dropWhile
          (fun m => !m.isHuman)).isEmpty = true
      · rw [if_pos hw] at hne
        exact absurd rfl hne
      · rw [if_neg hw] at hne ⊢
        have hwne : (takeLast (budget - 1) rest).dropWhile (fun m => !m.isHuman)
            ≠ [] := by
          simpa [List.isEmpty_iff] using hw
        have hin := wlist_recent (budget - 1) rest hm
          (by rw [← hfp2]; exact hlast) hwne
        exact List.mem_cons_of_mem m0 hin
    · have hsys2 : m0.isSystem = false := by
        simpa using hsys
      rw [trimLast_eq_nonsys budget ms m0 rest hP hsys2] at hne ⊢
      exact wlist_recent budget (m0 :: rest) hm (by rw [← hfp]; exact hlast) hne

lemma trimLast_sublist (budget : Nat) (ms : List Msg) :
    (trimLast budget ms).Sublist ms := by
  rcases hP : (ms.reverse.dropWhile (fun m => !(m.isHuman || m.isTool))).reverse
    with _ | ⟨m0, rest⟩
  · rw [trimLast_nil_of budget ms hP]
    exact List.nil_sublist ms
  · have hpre := popped_prefix ms
    rw [hP] at hpre
    have hsubP : (m0 :: rest).Sublist ms := hpre.sublist
    by_cases hsys : m0.isSystem = true
    · rw [trimLast_eq_sys budget ms m0 rest hP hsys]
      by_cases hw : ((takeLast (budget - 1) rest).dropWhile
          (fun m => !m.isHuman)).isEmpty = true
      · rw [if_pos hw]
        exact List.nil_sublist ms
      · rw [if_neg hw]
        have h1 : ((takeLast (budget - 1) rest).dropWhile
            (fun m => !m.isHuman)).Sublist rest :=
          (wlist_suffix (budget - 1) rest).sublist
        exact (h1.cons₂ m0).trans hsubP
    · have hsys2 : m0.isSystem = false := by
        simpa using hsys
      rw [trimLast_eq_nonsys budget ms m0 rest hP hsys2]
      exact ((wlist_suffix budget (m0 :: rest)).sublist).trans hsubP

/-- Claim C7, counterexample.  The claim says trimming never drops the most
recent human message.  With budget 2 and history
`[human, ai(tool-call), tool]` (which exceeds the budget), the "last"
strategy keeps the suffix `[ai, tool]`, and the start-on-human constraint
then discards the whole window: the most recent human message is dropped
and the trimmed result is empty. -/
theorem claim_C7_counterexample :
    ([Msg.human "hi", Msg.ai (.ofStr "") [] none, Msg.tool "result"].length > 2)
    ∧ (([Msg.human "hi", Msg.ai (.ofStr "") [] none,
          Msg.tool "result"].filter Msg.isHuman).getLast? = some (Msg.human "hi"))
    ∧ trimLast 2 [Msg.human "hi", Msg.ai (.ofStr "") [] none, Msg.tool "result"] = []
    ∧ Msg.human "hi" ∉
        trimLast 2 [Msg.human "hi", Msg.ai (.ofStr "") [] none, Msg.tool "result"] := by
  refine ⟨by decide, by decide, by decide, by decide⟩

/-- Claim C7, amended.  The trimmed window keeps a subsequence of the most
recent messages and, *whenever it is non-empty*, ends on a human- or
tool-originated message, starts on a human-originated message (after the
retained leading system message, if the history starts with one), and
contains the most recent human message.  Trimming may discard everything
— including the most recent human message and the system message — when
no human-starting window fits the budget; in that case the `chatbot`
node returns an empty message list without invoking the model. -/
theorem claim_C7_amended :
    ∀ (budget : Nat) (ms : List Msg),
      (∀ m, (trimLast budget ms).getLast? = some m →
        m.isHuman = true ∨ m.isTool = true)
      ∧ (∀ m rest2, trimLast budget ms = m :: rest2 →
        m.isHuman = true
        ∨ (m.isSystem = true ∧ ∃ h2 t2, rest2 = h2 :: t2 ∧ h2.isHuman = true))
      ∧ (∀ m0 tl, ms = m0 :: tl → m0.isSystem = true → trimLast budget ms ≠ [] →
        (trimLast budget ms).head? = some m0)
      ∧ (∀ hm, (ms.filter Msg.isHuman).getLast? = some hm →
        trimLast budget ms ≠ [] → hm ∈ trimLast budget ms)
      ∧ (trimLast budget ms).Sublist ms
      ∧ (∀ (sysPrompt : Option String) (qaPairs : List (String × String))
          (descs contents : List (String × String))
          (registry : List (String × List String)) (cfgB cfgE : List String)
          (mt : String → Option (List String)) (llm : List Msg → Msg)
          (store : SkillStore),
          trimLast budget ms = [] →
          (chatbotStep sysPrompt qaPairs budget descs contents registry cfgB cfgE
            mt llm store ms).outMessages = []
          ∧ (chatbotStep sysPrompt qaPairs budget descs contents registry cfgB cfgE
            mt llm store ms).invokedModel = false) := by
  intro budget ms
  refine ⟨trimLast_ends budget ms, trimLast_starts budget ms,
    trimLast_system budget ms, trimLast_recent budget ms,
    trimLast_sublist budget ms, ?_⟩
  intro sysPrompt qaPairs descs contents registry cfgB cfgE mt llm store h
  unfold chatbotStep
  simp [h]

/-- Claim C7, amended, witness. -/
theorem claim_C7_amended_witness :
    (([Msg.system "sp", Msg.human "q", Msg.ai (.ofStr "a") [] none] : List Msg)
      = Msg.system "sp" :: [Msg.human "q", Msg.ai (.ofStr "a") [] none])
    ∧ (Msg.system "sp").isSystem = true
    ∧ trimLast 3 [Msg.system "sp", Msg.human "q", Msg.ai (.ofStr "a") [] none] ≠ []
    ∧ (trimLast 3 [Msg.system "sp", Msg.human "q",
        Msg.ai (.ofStr "a") [] none]).head? = some (Msg.system "sp")
    ∧ Msg.human "q" ∈
        trimLast 3 [Msg.system "sp", Msg.human "q", Msg.ai (.ofStr "a") [] none] :=
  ⟨rfl, by decide, by decide,
    (claim_C7_amended 3
      [Msg.system "sp", Msg.human "q", Msg.ai (.ofStr "a") [] none]).2.2.1
      (Msg.system "sp") [Msg.human "q", Msg.ai (.ofStr "a") [] none] rfl
      (by decide) (by decide),
    (claim_C7_amended 3
      [Msg.system "sp", Msg.human "q", Msg.ai (.ofStr "a") [] none]).2.2.2.1
      (Msg.human "q") (by decide) (by decide)⟩

end LlmChat
